import Mathlib

/-!
Shallow embedding of `segment_anything/modeling/mask_decoder.py`: the
`MaskDecoder` module (token assembly, transformer invocation, mask upscaling,
hypernetwork mask synthesis, quality head, output selection) and the generic
`MLP`. Tensors are modelled as a shape together with a total valuation
function; scalars range over a linearly ordered field in place of floating
point. The transformer is the external collaborator of spec section 4.3 and is
modelled as an opaque function parameter, exactly the interface the source
consumes.
-/

namespace SegmentAnything

/-- Shape of a rank-2 tensor. -/
structure Shape2 where
  d0 : Nat
  d1 : Nat
  deriving DecidableEq

/-- Shape of a rank-3 tensor, written `[b, t, c]` as in the source comments. -/
structure Shape3 where
  b : Nat
  t : Nat
  c : Nat
  deriving DecidableEq

/-- Shape of a rank-4 tensor, written `[b, c, h, w]` as in the source comments. -/
structure Shape4 where
  b : Nat
  c : Nat
  h : Nat
  w : Nat
  deriving DecidableEq

/-- A rank-2 tensor: a shape plus a total valuation of the entries. -/
structure Tensor2 (α : Type) where
  shape : Shape2
  val : Nat → Nat → α

/-- A rank-3 tensor. -/
structure Tensor3 (α : Type) where
  shape : Shape3
  val : Nat → Nat → Nat → α

/-- A rank-4 tensor. -/
structure Tensor4 (α : Type) where
  shape : Shape4
  val : Nat → Nat → Nat → Nat → α

/-- Number of entries of a rank-3 tensor, as used by `torch.Tensor.view`
when it infers a `-1` dimension. -/
def Tensor3.numel {α : Type} (t : Tensor3 α) : Nat :=
  t.shape.b * t.shape.t * t.shape.c

/-- `torch.cat([a, b], dim=0)` on rank-2 tensors. -/
def cat2dim0 {α : Type} (a b : Tensor2 α) : Tensor2 α :=
  { shape := { d0 := a.shape.d0 + b.shape.d0, d1 := a.shape.d1 }
    val := fun i j => if i < a.shape.d0 then a.val i j else b.val (i - a.shape.d0) j }

/-- `t.unsqueeze(0).expand(b, -1, -1)` on a rank-2 tensor: broadcast to batch `b`. -/
def expandBatch {α : Type} (t : Tensor2 α) (b : Nat) : Tensor3 α :=
  { shape := { b := b, t := t.shape.d0, c := t.shape.d1 }
    val := fun _ i j => t.val i j }

/-- `torch.cat((a, b), dim=1)` on rank-3 tensors. -/
def cat3dim1 {α : Type} (a b : Tensor3 α) : Tensor3 α :=
  { shape := { b := a.shape.b, t := a.shape.t + b.shape.t, c := a.shape.c }
    val := fun bb i c => if i < a.shape.t then a.val bb i c else b.val bb (i - a.shape.t) c }

/-- `torch.repeat_interleave(t, r, dim=0)`: each batch element is repeated `r`
times consecutively, so output batch index `b` reads input index `b / r`. -/
def repeatInterleave0 {α : Type} (t : Tensor4 α) (r : Nat) : Tensor4 α :=
  { shape := { b := t.shape.b * r, c := t.shape.c, h := t.shape.h, w := t.shape.w }
    val := fun b c y x => t.val (b / r) c y x }

/-- Elementwise addition of two rank-4 tensors (`src + dense_prompt_embeddings`). -/
def add4 {α : Type} [Add α] (a b : Tensor4 α) : Tensor4 α :=
  { shape := a.shape
    val := fun bb c y x => a.val bb c y x + b.val bb c y x }

/-- `t[:, i, :]` on a rank-3 tensor. -/
def select3dim1 {α : Type} (t : Tensor3 α) (i : Nat) : Tensor2 α :=
  { shape := { d0 := t.shape.b, d1 := t.shape.c }
    val := fun b c => t.val b i c }

/-- `t[:, start:stop, :]` on a rank-3 tensor, with Python slice clamping. -/
def slice3dim1 {α : Type} (t : Tensor3 α) (start stop : Nat) : Tensor3 α :=
  { shape := { b := t.shape.b, t := min stop t.shape.t - min start t.shape.t, c := t.shape.c }
    val := fun b i c => t.val b (start + i) c }

/-- `t[:, start:stop, :, :]` on a rank-4 tensor; `stop = none` encodes
`slice(start, None)`. -/
def slice4dim1 {α : Type} (t : Tensor4 α) (start : Nat) (stop : Option Nat) : Tensor4 α :=
  { shape := { b := t.shape.b
               c := min (stop.getD t.shape.c) t.shape.c - min start t.shape.c
               h := t.shape.h, w := t.shape.w }
    val := fun b i y x => t.val b (start + i) y x }

/-- `t[:, start:stop]` on a rank-2 tensor; `stop = none` encodes `slice(start, None)`. -/
def slice2dim1 {α : Type} (t : Tensor2 α) (start : Nat) (stop : Option Nat) : Tensor2 α :=
  { shape := { d0 := t.shape.d0
               d1 := min (stop.getD t.shape.d1) t.shape.d1 - min start t.shape.d1 }
    val := fun b i => t.val b (start + i) }

/-- `t.transpose(1, 2)` on a rank-3 tensor. -/
def transpose12 {α : Type} (t : Tensor3 α) : Tensor3 α :=
  { shape := { b := t.shape.b, t := t.shape.c, c := t.shape.t }
    val := fun b i j => t.val b j i }

/-- `t.view(b, c, h, w)` splitting the last axis of a rank-3 tensor `[b, c, h*w]`
into `[b, c, h, w]` (the use site `src.transpose(1, 2).view(b, c, h, w)` splits
the trailing flattened spatial axis). -/
def view4of3 {α : Type} (t : Tensor3 α) (b c h w : Nat) : Tensor4 α :=
  { shape := { b := b, c := c, h := h, w := w }
    val := fun bb cc y x => t.val bb cc (y * w + x) }

/-- `t.view(b, c, n)` merging the last two axes of a rank-4 tensor
(`upscaled_embedding.view(b, c, h * w)`). -/
def view3of4 {α : Type} (t : Tensor4 α) (b c n : Nat) : Tensor3 α :=
  { shape := { b := b, t := c, c := n }
    val := fun bb cc i => t.val bb cc (i / t.shape.w) (i % t.shape.w) }

/-- `t.view(b, -1, h, w)` on a (contiguous) rank-3 tensor: the `-1` dimension is
inferred as `numel / (b*h*w)`, and entries are re-read through the flat
row-major index. -/
def view4infer {α : Type} (t : Tensor3 α) (b h w : Nat) : Tensor4 α :=
  { shape := { b := b, c := t.numel / (b * h * w), h := h, w := w }
    val := fun bb m y x =>
      t.val ((((bb * (t.numel / (b * h * w)) + m) * h + y) * w + x) / (t.shape.t * t.shape.c))
            ((((bb * (t.numel / (b * h * w)) + m) * h + y) * w + x) / t.shape.c % t.shape.t)
            ((((bb * (t.numel / (b * h * w)) + m) * h + y) * w + x) % t.shape.c) }

/-- Pointwise application of a scalar function (an activation module). -/
def mapVal4 {α : Type} (f : α → α) (t : Tensor4 α) : Tensor4 α :=
  { shape := t.shape, val := fun b c y x => f (t.val b c y x) }

/-- Batched matrix product `a @ b` of `[b, m, k]` with `[b, k, n]`. -/
def matmul3 {α : Type} [LinearOrderedField α] (a b : Tensor3 α) : Tensor3 α :=
  { shape := { b := a.shape.b, t := a.shape.t, c := b.shape.c }
    val := fun bb i j => ∑ k ∈ Finset.range a.shape.c, a.val bb i k * b.val bb k j }

/-- The all-zero rank-2 tensor, used as the out-of-range default of list reads. -/
def Tensor2.zero {α : Type} [LinearOrderedField α] : Tensor2 α :=
  { shape := { d0 := 0, d1 := 0 }, val := fun _ _ => 0 }

/-- `torch.stack(l, dim=1)` on a list of rank-2 tensors `[b, c]`, giving `[b, len l, c]`. -/
def stack3dim1 {α : Type} [LinearOrderedField α] (l : List (Tensor2 α)) : Tensor3 α :=
  { shape := { b := (l.headD Tensor2.zero).shape.d0
               t := l.length
               c := (l.headD Tensor2.zero).shape.d1 }
    val := fun b i c => (l.getD i Tensor2.zero).val b c }

/-- A `torch.nn.Linear(n, k)` module: `weight` has shape `[k, n]` and the module
computes `x ↦ weight @ x + bias`. -/
structure Linear (α : Type) where
  inDim : Nat
  outDim : Nat
  weight : Nat → Nat → α
  bias : Nat → α

/-- Application of a `nn.Linear` module to a vector. -/
def Linear.apply {α : Type} [LinearOrderedField α] (l : Linear α) (x : Nat → α) : Nat → α :=
  fun j => (∑ i ∈ Finset.range l.inDim, l.weight j i * x i) + l.bias j

/-- `F.relu`. -/
def relu {α : Type} [LinearOrderedField α] (x : α) : α := max x 0

/-- The `MLP` module of the source: a list of linear layers, the recorded
`num_layers` (an arbitrary Python int, hence `Int`), and the `sigmoid_output`
flag. -/
structure MLP (α : Type) where
  num_layers : Int
  layers : List (Linear α)
  sigmoid_output : Bool

/-- `MLP.__init__`: `h = [hidden_dim] * (num_layers - 1)` (the empty list when
`num_layers - 1 <= 0`, as in Python), and the layers come from
`zip([input_dim] + h, h + [output_dim])`; layer `i` gets its own parameter
set `(w i, bias i)`. -/
def MLP.make {α : Type} (input_dim hidden_dim output_dim : Nat) (num_layers : Int)
    (w : Nat → Nat → Nat → α) (bias : Nat → Nat → α) (sigmoid_output : Bool) : MLP α :=
  let h : List Nat := List.replicate (num_layers - 1).toNat hidden_dim
  let dims : List (Nat × Nat) := List.zip (input_dim :: h) (h ++ [output_dim])
  { num_layers := num_layers
    layers := dims.enum.map
      (fun p => { inDim := p.2.1, outDim := p.2.2, weight := w p.1, bias := bias p.1 })
    sigmoid_output := sigmoid_output }

/-- The loop of `MLP.forward`: `x = F.relu(layer(x)) if i < self.num_layers - 1
else layer(x)`, with `i` the enumeration index. -/
def MLP.runLayers {α : Type} [LinearOrderedField α] (nl : Int) :
    Nat → List (Linear α) → (Nat → α) → Nat → α
  | _, [], x => x
  | i, l :: rest, x =>
      MLP.runLayers nl (i + 1) rest
        (if (i : Int) < nl - 1 then fun j => relu (Linear.apply l x j) else Linear.apply l x)

/-- `MLP.forward`: run the layer loop, then apply `F.sigmoid` when
`sigmoid_output` is set. `sg` stands for `F.sigmoid`; at `α = ℝ` it is
instantiated with the real logistic function `sigmoidReal` below. -/
def MLP.forward {α : Type} [LinearOrderedField α] (sg : α → α) (m : MLP α) (x : Nat → α) :
    Nat → α :=
  let y := MLP.runLayers m.num_layers 0 m.layers x
  if m.sigmoid_output then fun j => sg (y j) else y

/-- Output dimension of an `MLP`: the `out_features` of its last linear layer. -/
def MLP.outDim {α : Type} (m : MLP α) : Nat :=
  (m.layers.map Linear.outDim).getLastD 0

/-- An `MLP` applied to a rank-2 tensor `[b, c]` along the last axis, as
PyTorch modules broadcast over leading axes. -/
def MLP.forward2 {α : Type} [LinearOrderedField α] (sg : α → α) (m : MLP α) (t : Tensor2 α) :
    Tensor2 α :=
  { shape := { d0 := t.shape.d0, d1 := m.outDim }
    val := fun b j => MLP.forward sg m (fun c => t.val b c) j }

/-- Claim-side reformulation of the layer loop (spec section 4.1): a
rectified-linear activation after every hidden stage and no activation after
the final stage. Used to state that the source loop's index test agrees with
"all but the last layer". -/
def mlpSpecChain {α : Type} [LinearOrderedField α] : List (Linear α) → (Nat → α) → Nat → α
  | [], x => x
  | [l], x => Linear.apply l x
  | l :: l2 :: rest, x => mlpSpecChain (l2 :: rest) (fun j => relu (Linear.apply l x j))

/-- The real logistic function, the semantics of `F.sigmoid`. -/
noncomputable def sigmoidReal (x : ℝ) : ℝ := 1 / (1 + Real.exp (-x))

/-- A `nn.ConvTranspose2d(cin, cout, kernel_size=2, stride=2)` module, the only
configuration the source constructs. With kernel 2 and stride 2 every output
position `(oy, ox)` receives exactly one kernel tap, at input position
`(oy / 2, ox / 2)` and kernel offset `(oy % 2, ox % 2)`, and the spatial size
doubles: `(h - 1) * 2 + 2 = 2 * h`. `weight` has shape `[cin, cout, 2, 2]`. -/
structure ConvT2x2 (α : Type) where
  in_channels : Nat
  out_channels : Nat
  weight : Nat → Nat → Nat → Nat → α
  bias : Nat → α

/-- Application of a stride-2 kernel-2 transposed convolution. -/
def ConvT2x2.apply {α : Type} [LinearOrderedField α] (m : ConvT2x2 α) (t : Tensor4 α) :
    Tensor4 α :=
  { shape := { b := t.shape.b, c := m.out_channels, h := 2 * t.shape.h, w := 2 * t.shape.w }
    val := fun b oc oy ox =>
      (∑ ic ∈ Finset.range m.in_channels,
        t.val b ic (oy / 2) (ox / 2) * m.weight ic oc (oy % 2) (ox % 2)) + m.bias oc }

/-- Modelled from the spec: `LayerNorm2d` is imported from `.common`, which is
not part of the provided source. The spec (section 4.4) describes it only as
"a normalization step" between the first transposed convolution and the
activation, whose net effect keeps the stage's shape; it is modelled as an
arbitrary parameterized transformation of the entry valuation that preserves
the shape. -/
structure LayerNorm2d (α : Type) where
  normalize : (Nat → Nat → Nat → Nat → α) → Nat → Nat → Nat → Nat → α

/-- Application of the (spec-modelled) `LayerNorm2d`. -/
def LayerNorm2d.apply {α : Type} (m : LayerNorm2d α) (t : Tensor4 α) : Tensor4 α :=
  { shape := t.shape, val := m.normalize t.val }

/-- The learned parameter bundle of a `MaskDecoder`: PyTorch initializes these
randomly at construction; the embedding passes them in explicitly.
`hyperWeight i` and `hyperBias i` are the parameters of the `i`-th
hypernetwork `MLP`. -/
structure MaskDecoderParams (α : Type) where
  iouTokenWeight : Nat → Nat → α
  maskTokensWeight : Nat → Nat → α
  up1Weight : Nat → Nat → Nat → Nat → α
  up1Bias : Nat → α
  lnorm : (Nat → Nat → Nat → Nat → α) → Nat → Nat → Nat → Nat → α
  up2Weight : Nat → Nat → Nat → Nat → α
  up2Bias : Nat → α
  hyperWeight : Nat → Nat → Nat → Nat → α
  hyperBias : Nat → Nat → Nat → α
  iouHeadWeight : Nat → Nat → Nat → α
  iouHeadBias : Nat → Nat → α

/-- The `MaskDecoder` module state after `__init__`. -/
structure MaskDecoder (α : Type) where
  transformer_dim : Nat
  transformer : Tensor4 α → Tensor4 α → Tensor3 α → Tensor3 α × Tensor3 α
  num_multimask_outputs : Nat
  iou_token : Tensor2 α
  num_mask_tokens : Nat
  mask_tokens : Tensor2 α
  up1 : ConvT2x2 α
  norm1 : LayerNorm2d α
  act : α → α
  up2 : ConvT2x2 α
  output_hypernetworks_mlps : List (MLP α)
  iou_prediction_head : MLP α

/-- `MaskDecoder.__init__`. `num_mask_tokens = num_multimask_outputs + 1`; the
upscaler reduces channels by integer division `transformer_dim // 4` and
`// 8` (Python floor division — no divisibility check is performed and
construction never fails); there are `num_mask_tokens` hypernetwork MLPs of
dims `(transformer_dim, transformer_dim, transformer_dim // 8)` with 3 layers,
and the quality head maps `transformer_dim` to `num_mask_tokens` outputs. -/
def MaskDecoder.make {α : Type} (transformer_dim : Nat)
    (transformer : Tensor4 α → Tensor4 α → Tensor3 α → Tensor3 α × Tensor3 α)
    (num_multimask_outputs : Nat) (act : α → α) (iou_head_depth : Int)
    (iou_head_hidden_dim : Nat) (p : MaskDecoderParams α) : MaskDecoder α :=
  { transformer_dim := transformer_dim
    transformer := transformer
    num_multimask_outputs := num_multimask_outputs
    iou_token := { shape := { d0 := 1, d1 := transformer_dim }, val := p.iouTokenWeight }
    num_mask_tokens := num_multimask_outputs + 1
    mask_tokens := { shape := { d0 := num_multimask_outputs + 1, d1 := transformer_dim }
                     val := p.maskTokensWeight }
    up1 := { in_channels := transformer_dim, out_channels := transformer_dim / 4
             weight := p.up1Weight, bias := p.up1Bias }
    norm1 := { normalize := p.lnorm }
    act := act
    up2 := { in_channels := transformer_dim / 4, out_channels := transformer_dim / 8
             weight := p.up2Weight, bias := p.up2Bias }
    output_hypernetworks_mlps :=
      (List.range (num_multimask_outputs + 1)).map
        (fun i => MLP.make transformer_dim transformer_dim (transformer_dim / 8) 3
          (p.hyperWeight i) (p.hyperBias i) false)
    iou_prediction_head :=
      MLP.make transformer_dim iou_head_hidden_dim (num_multimask_outputs + 1)
        iou_head_depth p.iouHeadWeight p.iouHeadBias false }

/-- The out-of-range default used when indexing the hypernetwork MLP list. -/
def mlpDefault {α : Type} : MLP α :=
  { num_layers := 0, layers := [], sigmoid_output := false }

/-- `output_tokens = torch.cat([self.iou_token.weight, self.mask_tokens.weight], dim=0)`. -/
def MaskDecoder.outputTokens {α : Type} (d : MaskDecoder α) : Tensor2 α :=
  cat2dim0 d.iou_token d.mask_tokens

/-- `tokens = torch.cat((output_tokens.unsqueeze(0).expand(sparse.size(0), -1, -1),
sparse_prompt_embeddings), dim=1)`. -/
def MaskDecoder.tokensOf {α : Type} (d : MaskDecoder α) (sparse : Tensor3 α) : Tensor3 α :=
  cat3dim1 (expandBatch d.outputTokens sparse.shape.b) sparse

/-- `src = torch.repeat_interleave(image_embeddings, tokens.shape[0], dim=0);
src = src + dense_prompt_embeddings`. -/
def MaskDecoder.srcOf {α : Type} [LinearOrderedField α] (d : MaskDecoder α)
    (image dense : Tensor4 α) (sparse : Tensor3 α) : Tensor4 α :=
  add4 (repeatInterleave0 image (d.tokensOf sparse).shape.b) dense

/-- `pos_src = torch.repeat_interleave(image_pe, tokens.shape[0], dim=0)`. -/
def MaskDecoder.posSrcOf {α : Type} (d : MaskDecoder α) (pe : Tensor4 α) (sparse : Tensor3 α) :
    Tensor4 α :=
  repeatInterleave0 pe (d.tokensOf sparse).shape.b

/-- `hs, src = self.transformer(src, pos_src, tokens)`. -/
def MaskDecoder.tfOut {α : Type} [LinearOrderedField α] (d : MaskDecoder α)
    (image pe : Tensor4 α) (sparse : Tensor3 α) (dense : Tensor4 α) :
    Tensor3 α × Tensor3 α :=
  d.transformer (d.srcOf image dense sparse) (d.posSrcOf pe sparse) (d.tokensOf sparse)

/-- `iou_token_out = hs[:, 0, :]`. -/
def MaskDecoder.iouTokenOut {α : Type} [LinearOrderedField α] (d : MaskDecoder α)
    (image pe : Tensor4 α) (sparse : Tensor3 α) (dense : Tensor4 α) : Tensor2 α :=
  select3dim1 (d.tfOut image pe sparse dense).1 0

/-- `mask_tokens_out = hs[:, 1 : (1 + self.num_mask_tokens), :]`. -/
def MaskDecoder.maskTokensOut {α : Type} [LinearOrderedField α] (d : MaskDecoder α)
    (image pe : Tensor4 α) (sparse : Tensor3 α) (dense : Tensor4 α) : Tensor3 α :=
  slice3dim1 (d.tfOut image pe sparse dense).1 1 (1 + d.num_mask_tokens)

/-- The `output_upscaling` sequential module: transposed convolution,
normalization, activation, transposed convolution, activation. -/
def MaskDecoder.output_upscaling {α : Type} [LinearOrderedField α] (d : MaskDecoder α)
    (x : Tensor4 α) : Tensor4 α :=
  mapVal4 d.act (d.up2.apply (mapVal4 d.act (d.norm1.apply (d.up1.apply x))))

/-- `src = src.transpose(1, 2).view(b, c, h, w); upscaled_embedding =
self.output_upscaling(src)`, where `b, c, h, w` were unpacked from the shape of
the pre-transformer `src`. -/
def MaskDecoder.upscaledOf {α : Type} [LinearOrderedField α] (d : MaskDecoder α)
    (image pe : Tensor4 α) (sparse : Tensor3 α) (dense : Tensor4 α) : Tensor4 α :=
  let s := (d.srcOf image dense sparse).shape
  d.output_upscaling (view4of3 (transpose12 (d.tfOut image pe sparse dense).2) s.b s.c s.h s.w)

/-- `hyper_in = torch.stack([self.output_hypernetworks_mlps[i](mask_tokens_out[:, i, :])
for i in range(self.num_mask_tokens)], dim=1)`. -/
def MaskDecoder.hyperInOf {α : Type} [LinearOrderedField α] (sg : α → α) (d : MaskDecoder α)
    (image pe : Tensor4 α) (sparse : Tensor3 α) (dense : Tensor4 α) : Tensor3 α :=
  stack3dim1 ((List.range d.num_mask_tokens).map
    (fun i => MLP.forward2 sg (d.output_hypernetworks_mlps.getD i mlpDefault)
      (select3dim1 (d.maskTokensOut image pe sparse dense) i)))

/-- `b, c, h, w = upscaled_embedding.shape;
masks = (hyper_in @ upscaled_embedding.view(b, c, h * w)).view(b, -1, h, w)`. -/
def MaskDecoder.masksOf {α : Type} [LinearOrderedField α] (sg : α → α) (d : MaskDecoder α)
    (image pe : Tensor4 α) (sparse : Tensor3 α) (dense : Tensor4 α) : Tensor4 α :=
  let u := d.upscaledOf image pe sparse dense
  view4infer
    (matmul3 (d.hyperInOf sg image pe sparse dense)
      (view3of4 u u.shape.b u.shape.c (u.shape.h * u.shape.w)))
    u.shape.b u.shape.h u.shape.w

/-- `iou_pred = self.iou_prediction_head(iou_token_out)`. -/
def MaskDecoder.iouPredOf {α : Type} [LinearOrderedField α] (sg : α → α) (d : MaskDecoder α)
    (image pe : Tensor4 α) (sparse : Tensor3 α) (dense : Tensor4 α) : Tensor2 α :=
  MLP.forward2 sg d.iou_prediction_head (d.iouTokenOut image pe sparse dense)

/-- `MaskDecoder.predict_masks`: returns the full `num_mask_tokens`-slot masks
and quality predictions. -/
def MaskDecoder.predict_masks {α : Type} [LinearOrderedField α] (sg : α → α)
    (d : MaskDecoder α) (image pe : Tensor4 α) (sparse : Tensor3 α) (dense : Tensor4 α) :
    Tensor4 α × Tensor2 α :=
  (d.masksOf sg image pe sparse dense, d.iouPredOf sg image pe sparse dense)

/-- `MaskDecoder.forward`: run `predict_masks`, then select
`mask_slice = slice(1, None)` when `multimask_output` else `slice(0, 1)`, and
apply the same slice to both `masks` and `iou_pred`. -/
def MaskDecoder.forward {α : Type} [LinearOrderedField α] (sg : α → α) (d : MaskDecoder α)
    (image pe : Tensor4 α) (sparse : Tensor3 α) (dense : Tensor4 α)
    (multimask_output : Bool) : Tensor4 α × Tensor2 α :=
  let r := d.predict_masks sg image pe sparse dense
  let start : Nat := if multimask_output then 1 else 0
  let stop : Option Nat := if multimask_output then none else some 1
  (slice4dim1 r.1 start stop, slice2dim1 r.2 start stop)

/-- The consumed transformer interface of spec section 4.3: refined tokens with
the token sequence's shape, and the refined source feature map in flattened
form `[b, h*w, c]`. -/
def TransformerContract {α : Type}
    (f : Tensor4 α → Tensor4 α → Tensor3 α → Tensor3 α × Tensor3 α) : Prop :=
  ∀ s p t, ((f s p t).1.shape = t.shape) ∧
    ((f s p t).2.shape = { b := s.shape.b, t := s.shape.h * s.shape.w, c := s.shape.c })

/-- A concrete transformer satisfying the interface contract: it returns the
token sequence unchanged and the flattened source feature map. Used only to
instantiate witnesses and counterexamples. -/
def tfFlat (α : Type) : Tensor4 α → Tensor4 α → Tensor3 α → Tensor3 α × Tensor3 α :=
  fun s _ t =>
    (t, { shape := { b := s.shape.b, t := s.shape.h * s.shape.w, c := s.shape.c }
          val := fun b i c => s.val b c (i / s.shape.w) (i % s.shape.w) })

/-- All-zero rank-3 tensor of a given shape. -/
def zeros3 {α : Type} [LinearOrderedField α] (s : Shape3) : Tensor3 α :=
  { shape := s, val := fun _ _ _ => 0 }

/-- All-zero rank-4 tensor of a given shape. -/
def zeros4 {α : Type} [LinearOrderedField α] (s : Shape4) : Tensor4 α :=
  { shape := s, val := fun _ _ _ _ => 0 }

/-- An all-zero parameter bundle over `ℚ`, for concrete instantiations. -/
def zeroParams : MaskDecoderParams ℚ :=
  { iouTokenWeight := fun _ _ => 0
    maskTokensWeight := fun _ _ => 0
    up1Weight := fun _ _ _ _ => 0
    up1Bias := fun _ => 0
    lnorm := fun v => v
    up2Weight := fun _ _ _ _ => 0
    up2Bias := fun _ => 0
    hyperWeight := fun _ _ _ _ => 0
    hyperBias := fun _ _ => 0
    iouHeadWeight := fun _ _ _ => 0
    iouHeadBias := fun _ _ => 0 }

/-- A concrete decoder over `ℚ` with `transformer_dim = 8` and default
configuration (`num_multimask_outputs = 3`, `iou_head_depth = 3`,
`iou_head_hidden_dim = 256`). -/
def decQ8 : MaskDecoder ℚ :=
  MaskDecoder.make 8 (tfFlat ℚ) 3 id 3 256 zeroParams

/-- A concrete decoder over `ℚ` with `transformer_dim = 9`, which `8` does not
divide. -/
def decQ9 : MaskDecoder ℚ :=
  MaskDecoder.make 9 (tfFlat ℚ) 3 id 3 256 zeroParams

/-- A concrete single-image embedding over `ℚ`: shape `[1, 8, 1, 1]`. -/
def img1 : Tensor4 ℚ := zeros4 { b := 1, c := 8, h := 1, w := 1 }

/-- A concrete sparse prompt embedding over `ℚ` with two prompt instances:
shape `[2, 1, 8]`. -/
def sp2 : Tensor3 ℚ := zeros3 { b := 2, t := 1, c := 8 }

/-- A concrete dense prompt embedding over `ℚ`: shape `[2, 8, 1, 1]`. -/
def dn2 : Tensor4 ℚ := zeros4 { b := 2, c := 8, h := 1, w := 1 }

/-- Reading the `i`-th element of `(List.range M).map f` within range. -/
theorem getD_map_range {β : Type} (f : Nat → β) {M i : Nat} (h : i < M) (d : β) :
    ((List.range M).map f).getD i d = f i := by
  rw [List.getD_eq_getElem?_getD, List.getElem?_map, List.getElem?_range h]
  rfl

theorem mlp_make_num_layers {α : Type} (nIn nHid nOut : Nat) (L : Int)
    (w : Nat → Nat → Nat → α) (bs : Nat → Nat → α) (sgo : Bool) :
    (MLP.make nIn nHid nOut L w bs sgo).num_layers = L := rfl

theorem mlp_make_sigmoid {α : Type} (nIn nHid nOut : Nat) (L : Int)
    (w : Nat → Nat → Nat → α) (bs : Nat → Nat → α) (sgo : Bool) :
    (MLP.make nIn nHid nOut L w bs sgo).sigmoid_output = sgo := rfl

/-- The input dimensions of the constructed layers are `[input_dim] + h`. -/
theorem mlp_make_inDims {α : Type} (nIn nHid nOut : Nat) (L : Int)
    (w : Nat → Nat → Nat → α) (bs : Nat → Nat → α) (sgo : Bool) :
    (MLP.make nIn nHid nOut L w bs sgo).layers.map Linear.inDim
      = nIn :: List.replicate (L - 1).toNat nHid := by
  simp only [MLP.make, List.map_map]
  have h1 : (Linear.inDim ∘ fun p : Nat × (Nat × Nat) =>
      ({ inDim := p.2.1, outDim := p.2.2, weight := w p.1, bias := bs p.1 } : Linear α))
      = Prod.fst ∘ Prod.snd := rfl
  rw [h1, ← List.map_map, List.enum_map_snd, List.map_fst_zip]
  simp

/-- The output dimensions of the constructed layers are `h + [output_dim]`. -/
theorem mlp_make_outDims {α : Type} (nIn nHid nOut : Nat) (L : Int)
    (w : Nat → Nat → Nat → α) (bs : Nat → Nat → α) (sgo : Bool) :
    (MLP.make nIn nHid nOut L w bs sgo).layers.map Linear.outDim
      = List.replicate (L - 1).toNat nHid ++ [nOut] := by
  simp only [MLP.make, List.map_map]
  have h1 : (Linear.outDim ∘ fun p : Nat × (Nat × Nat) =>
      ({ inDim := p.2.1, outDim := p.2.2, weight := w p.1, bias := bs p.1 } : Linear α))
      = Prod.snd ∘ Prod.snd := rfl
  rw [h1, ← List.map_map, List.enum_map_snd, List.map_snd_zip]
  simp

theorem mlp_make_length {α : Type} (nIn nHid nOut : Nat) (L : Int)
    (w : Nat → Nat → Nat → α) (bs : Nat → Nat → α) (sgo : Bool) :
    (MLP.make nIn nHid nOut L w bs sgo).layers.length = (L - 1).toNat + 1 := by
  have := congrArg List.length (mlp_make_inDims nIn nHid nOut L w bs sgo)
  simpa using this

/-- The constructed MLP always maps to `output_dim` in its final stage. -/
theorem mlp_make_outDim {α : Type} (nIn nHid nOut : Nat) (L : Int)
    (w : Nat → Nat → Nat → α) (bs : Nat → Nat → α) (sgo : Bool) :
    (MLP.make nIn nHid nOut L w bs sgo).outDim = nOut := by
  unfold MLP.outDim
  rw [mlp_make_outDims]
  simp [List.getLastD_eq_getLast?]

/-- The index test `i < num_layers - 1` of the source loop agrees with "every
layer but the last" whenever the running index plus the residual layer count
equals `num_layers`. -/
theorem runLayers_eq_chain {α : Type} [LinearOrderedField α] (L : Int)
    (ls : List (Linear α)) : ∀ (k : Nat) (x : Nat → α), (k : Int) + ls.length = L →
      MLP.runLayers L k ls x = mlpSpecChain ls x := by
  induction ls with
  | nil => intro k x _; rfl
  | cons l rest ih =>
      intro k x hk
      cases rest with
      | nil =>
          have hc : ¬((k : Int) < L - 1) := by simp at hk; omega
          simp [MLP.runLayers, mlpSpecChain, hc]
      | cons l2 rest2 =>
          have hc : (k : Int) < L - 1 := by simp at hk; omega
          simp only [MLP.runLayers, mlpSpecChain, if_pos hc]
          exact ih (k + 1) _ (by simp at hk ⊢; omega)

/-- C7: with `numLayers = L >= 1` the generic MLP applies exactly `L` linear
stages, with `L - 1` hidden layers of width `hidden`; the forward pass applies
a rectified-linear activation after every hidden stage and none after the
final stage (`sigmoidOutput` unset); and with `numLayers = 1` the output is
the single linear map `input_dim -> output_dim` applied to the input with no
ReLU anywhere. -/
theorem C7_mlp_contract {α : Type} [LinearOrderedField α]
    (nIn nHid nOut : Nat) (L : Int) (hL : 1 ≤ L)
    (w : Nat → Nat → Nat → α) (bs : Nat → Nat → α) (sg : α → α) (x : Nat → α) :
    (MLP.make nIn nHid nOut L w bs false).layers.length = L.toNat
    ∧ (MLP.make nIn nHid nOut L w bs false).layers.map Linear.inDim
        = nIn :: List.replicate (L.toNat - 1) nHid
    ∧ (MLP.make nIn nHid nOut L w bs false).layers.map Linear.outDim
        = List.replicate (L.toNat - 1) nHid ++ [nOut]
    ∧ MLP.forward sg (MLP.make nIn nHid nOut L w bs false) x
        = mlpSpecChain (MLP.make nIn nHid nOut L w bs false).layers x
    ∧ (L = 1 → MLP.forward sg (MLP.make nIn nHid nOut 1 w bs false) x
        = Linear.apply { inDim := nIn, outDim := nOut, weight := w 0, bias := bs 0 } x) := by
  have hnat : (L - 1).toNat = L.toNat - 1 := by omega
  refine ⟨?_, ?_, ?_, ?_, ?_⟩
  · rw [mlp_make_length]; omega
  · rw [mlp_make_inDims, hnat]
  · rw [mlp_make_outDims, hnat]
  · have hlen : ((0 : Nat) : Int) + (MLP.make nIn nHid nOut L w bs false).layers.length = L := by
      rw [mlp_make_length]; push_cast; omega
    calc MLP.forward sg (MLP.make nIn nHid nOut L w bs false) x
        = MLP.runLayers L 0 (MLP.make nIn nHid nOut L w bs false).layers x := by
          simp [MLP.forward, mlp_make_sigmoid, mlp_make_num_layers]
      _ = mlpSpecChain (MLP.make nIn nHid nOut L w bs false).layers x :=
          runLayers_eq_chain L _ 0 x hlen
  · intro _
    rfl

/-- C7 witness at `L = 2` over `ℚ`. -/
theorem C7_mlp_contract_witness :
    (MLP.make (α := ℚ) 2 3 1 2 (fun _ _ _ => 0) (fun _ _ => 0) false).layers.length
        = (2 : Int).toNat
    ∧ (MLP.make (α := ℚ) 2 3 1 2 (fun _ _ _ => 0) (fun _ _ => 0) false).layers.map Linear.inDim
        = 2 :: List.replicate ((2 : Int).toNat - 1) 3
    ∧ (MLP.make (α := ℚ) 2 3 1 2 (fun _ _ _ => 0) (fun _ _ => 0) false).layers.map Linear.outDim
        = List.replicate ((2 : Int).toNat - 1) 3 ++ [1]
    ∧ MLP.forward id (MLP.make (α := ℚ) 2 3 1 2 (fun _ _ _ => 0) (fun _ _ => 0) false)
          (fun _ => 0)
        = mlpSpecChain (MLP.make (α := ℚ) 2 3 1 2 (fun _ _ _ => 0) (fun _ _ => 0) false).layers
          (fun _ => 0)
    ∧ ((2 : Int) = 1 → MLP.forward id (MLP.make (α := ℚ) 2 3 1 1 (fun _ _ _ => 0)
          (fun _ _ => 0) false) (fun _ => 0)
        = Linear.apply { inDim := 2, outDim := 1, weight := (fun _ _ _ => (0 : ℚ)) 0
                         bias := (fun _ _ => (0 : ℚ)) 0 } (fun _ => 0)) :=
  C7_mlp_contract 2 3 1 2 (by decide) (fun _ _ _ => 0) (fun _ _ => 0) id (fun _ => 0)

/-- C10: for `num_layers <= 1` (including 0 and negatives) the constructor
still builds exactly one linear layer `input_dim -> output_dim`, and `forward`
applies that single map with no ReLU, identically to `num_layers = 1`. -/
theorem C10_mlp_degenerate_layers {α : Type} [LinearOrderedField α]
    (nIn nHid nOut : Nat) (L : Int) (hL : L ≤ 1)
    (w : Nat → Nat → Nat → α) (bs : Nat → Nat → α) (sgo : Bool) (sg : α → α) (x : Nat → α) :
    (MLP.make nIn nHid nOut L w bs sgo).layers
        = [{ inDim := nIn, outDim := nOut, weight := w 0, bias := bs 0 }]
    ∧ MLP.forward sg (MLP.make nIn nHid nOut L w bs sgo) x
        = MLP.forward sg (MLP.make nIn nHid nOut 1 w bs sgo) x
    ∧ (sgo = false → MLP.forward sg (MLP.make nIn nHid nOut L w bs sgo) x
        = Linear.apply { inDim := nIn, outDim := nOut, weight := w 0, bias := bs 0 } x) := by
  have h0 : (L - 1).toNat = 0 := by omega
  have hrep : List.replicate (L - 1).toNat nHid = ([] : List Nat) := by rw [h0]; rfl
  have hlay : (MLP.make nIn nHid nOut L w bs sgo).layers
      = [{ inDim := nIn, outDim := nOut, weight := w 0, bias := bs 0 }] := by
    simp only [MLP.make, hrep]
    rfl
  have hcondL : ¬((0 : Int) < L - 1) := by omega
  have hcond1 : ¬((0 : Int) < (1 : Int) - 1) := by omega
  have hfL : MLP.forward sg (MLP.make nIn nHid nOut L w bs sgo) x
      = (if sgo then fun j => sg (Linear.apply
          { inDim := nIn, outDim := nOut, weight := w 0, bias := bs 0 } x j)
        else Linear.apply { inDim := nIn, outDim := nOut, weight := w 0, bias := bs 0 } x) := by
    simp [MLP.forward, hlay, mlp_make_sigmoid, mlp_make_num_layers, MLP.runLayers, hcondL]
  have hlay1 : (MLP.make nIn nHid nOut 1 w bs sgo).layers
      = [{ inDim := nIn, outDim := nOut, weight := w 0, bias := bs 0 }] := rfl
  have hf1 : MLP.forward sg (MLP.make nIn nHid nOut 1 w bs sgo) x
      = (if sgo then fun j => sg (Linear.apply
          { inDim := nIn, outDim := nOut, weight := w 0, bias := bs 0 } x j)
        else Linear.apply { inDim := nIn, outDim := nOut, weight := w 0, bias := bs 0 } x) := by
    simp [MLP.forward, hlay1, mlp_make_sigmoid, mlp_make_num_layers, MLP.runLayers, hcond1]
  refine ⟨hlay, hfL.trans hf1.symm, ?_⟩
  intro hsgo
  rw [hfL, hsgo]
  rfl

/-- C10 witness at `num_layers = 0` over `ℚ`. -/
theorem C10_mlp_degenerate_layers_witness :
    (MLP.make (α := ℚ) 2 3 1 0 (fun _ _ _ => 0) (fun _ _ => 0) false).layers
        = [{ inDim := 2, outDim := 1, weight := (fun _ _ _ => (0 : ℚ)) 0
             bias := (fun _ _ => (0 : ℚ)) 0 }]
    ∧ MLP.forward id (MLP.make (α := ℚ) 2 3 1 0 (fun _ _ _ => 0) (fun _ _ => 0) false)
          (fun _ => 0)
        = MLP.forward id (MLP.make (α := ℚ) 2 3 1 1 (fun _ _ _ => 0) (fun _ _ => 0) false)
          (fun _ => 0)
    ∧ (false = false → MLP.forward id (MLP.make (α := ℚ) 2 3 1 0 (fun _ _ _ => 0)
          (fun _ _ => 0) false) (fun _ => 0)
        = Linear.apply { inDim := 2, outDim := 1, weight := (fun _ _ _ => (0 : ℚ)) 0
                         bias := (fun _ _ => (0 : ℚ)) 0 } (fun _ => 0)) :=
  C10_mlp_degenerate_layers 2 3 1 0 (by decide) (fun _ _ _ => 0) (fun _ _ => 0) false id
    (fun _ => 0)

/-- The real logistic function lands strictly inside `(0, 1)`. -/
theorem sigmoidReal_mem_Ioo (t : ℝ) : 0 < sigmoidReal t ∧ sigmoidReal t < 1 := by
  have he : 0 < Real.exp (-t) := Real.exp_pos _
  have hd : 0 < 1 + Real.exp (-t) := by linarith
  constructor
  · exact div_pos one_pos hd
  · rw [sigmoidReal, div_lt_one hd]; linarith

/-- C8: every output scalar of an MLP with `sigmoidOutput = true` lies strictly
inside the open interval `(0, 1)`, for every (finite real) input vector. -/
theorem C8_sigmoid_output_bounds (m : MLP ℝ) (hm : m.sigmoid_output = true)
    (x : Nat → ℝ) (j : Nat) :
    0 < MLP.forward sigmoidReal m x j ∧ MLP.forward sigmoidReal m x j < 1 := by
  simp only [MLP.forward, hm, if_true]
  exact sigmoidReal_mem_Ioo _

/-- C8 witness at a concrete one-layer sigmoid MLP and the zero input. -/
theorem C8_sigmoid_output_bounds_witness :
    0 < MLP.forward sigmoidReal
        (MLP.make 1 1 1 1 (fun _ _ _ => 0) (fun _ _ => 0) true) (fun _ => 0) 0
    ∧ MLP.forward sigmoidReal
        (MLP.make 1 1 1 1 (fun _ _ _ => 0) (fun _ _ => 0) true) (fun _ => 0) 0 < 1 :=
  C8_sigmoid_output_bounds _ rfl (fun _ => 0) 0

/-- C9: the forward computation is a pure function of the parameter bundle and
the input tensors: two calls at identical arguments return identical masks and
identical quality scores (in this embedding every operation, the opaque
transformer included, is a mathematical function, so there is no hidden
randomness). -/
theorem C9_forward_deterministic {α : Type} [LinearOrderedField α] (sg : α → α)
    (d : MaskDecoder α) (image pe : Tensor4 α) (sparse : Tensor3 α) (dense : Tensor4 α)
    (mm : Bool) :
    (MaskDecoder.forward sg d image pe sparse dense mm).1
        = (MaskDecoder.forward sg d image pe sparse dense mm).1
    ∧ (MaskDecoder.forward sg d image pe sparse dense mm).2
        = (MaskDecoder.forward sg d image pe sparse dense mm).2 :=
  ⟨rfl, rfl⟩

/-- C6 counterexample: with `transformerDim = 9`, which 8 does not divide,
construction succeeds anyway (Python floor division, no check) and the built
hypernetwork projection dimension is `9 / 8 = 1`, which is not exactly
`transformerDim / 8` since `1 * 8 ≠ 9`. -/
theorem C6_counterexample_dim9 :
    ((decQ9.output_hypernetworks_mlps.getD 0 mlpDefault).outDim = 1) ∧ ¬(1 * 8 = 9) := by
  constructor
  · rfl
  · decide

/-- C6 amended: construction never validates divisibility and never fails; for
every `transformerDim` the hypernetwork projection dimension equals the floor
`transformerDim / 8`, which is exact precisely when 8 divides
`transformerDim`. -/
theorem C6_projection_dim_floor {α : Type} (td : Nat)
    (tf : Tensor4 α → Tensor4 α → Tensor3 α → Tensor3 α × Tensor3 α)
    (nmo : Nat) (act : α → α) (ihd : Int) (ihh : Nat) (p : MaskDecoderParams α)
    (i : Nat) (hi : i < nmo + 1) :
    ((MaskDecoder.make td tf nmo act ihd ihh p).output_hypernetworks_mlps.getD
        i mlpDefault).outDim = td / 8
    ∧ (8 ∣ td → td / 8 * 8 = td) := by
  constructor
  · have hl : (MaskDecoder.make td tf nmo act ihd ihh p).output_hypernetworks_mlps
        = (List.range (nmo + 1)).map
          (fun i => MLP.make td td (td / 8) 3 (p.hyperWeight i) (p.hyperBias i) false) := rfl
    rw [hl, getD_map_range _ hi, mlp_make_outDim]
  · intro h
    exact Nat.div_mul_cancel h

/-- Row-major index split: dividing and reducing a merged spatial index
recovers the row and column. -/
theorem rowmajor_div_mod (y x w : Nat) (hx : x < w) :
    (y * w + x) / w = y ∧ (y * w + x) % w = x := by
  have hw0 : 0 < w := by omega
  constructor
  · rw [mul_comm y w, Nat.mul_add_div hw0, Nat.div_eq_of_lt hx, Nat.add_zero]
  · rw [Nat.mul_add_mod' y w x, Nat.mod_eq_of_lt hx]

/-- Decomposition of the flat row-major index used by
`view(b, -1, h, w)` on a `[B, M, h*w]` tensor. -/
theorem flat_index_decomp (b m y x M h w : Nat) (hm : m < M) (hy : y < h) (hx : x < w) :
    (((b * M + m) * h + y) * w + x) / (M * (h * w)) = b
    ∧ (((b * M + m) * h + y) * w + x) / (h * w) % M = m
    ∧ (((b * M + m) * h + y) * w + x) % (h * w) = y * w + x := by
  have hw0 : 0 < w := by omega
  have hh0 : 0 < h := by omega
  have hM0 : 0 < M := by omega
  have hhw0 : 0 < h * w := Nat.mul_pos hh0 hw0
  have hr : y * w + x < h * w := by
    calc y * w + x < y * w + w := by omega
      _ = (y + 1) * w := by ring
      _ ≤ h * w := Nat.mul_le_mul_right w (by omega)
  have heq : ((b * M + m) * h + y) * w + x = (h * w) * (b * M + m) + (y * w + x) := by ring
  have hdiv1 : (((b * M + m) * h + y) * w + x) / (h * w) = b * M + m := by
    rw [heq, Nat.mul_add_div hhw0, Nat.div_eq_of_lt hr, Nat.add_zero]
  refine ⟨?_, ?_, ?_⟩
  · rw [mul_comm M (h * w), ← Nat.div_div_eq_div_mul, hdiv1]
    rw [show b * M + m = M * b + m by ring, Nat.mul_add_div hM0, Nat.div_eq_of_lt hm,
      Nat.add_zero]
  · rw [hdiv1, Nat.mul_add_mod' b M m, Nat.mod_eq_of_lt hm]
  · rw [heq, mul_comm (h * w) (b * M + m), Nat.mul_add_mod' _ _ _, Nat.mod_eq_of_lt hr]

theorem make_num_mask_tokens {α : Type} (td : Nat)
    (tf : Tensor4 α → Tensor4 α → Tensor3 α → Tensor3 α × Tensor3 α)
    (nmo : Nat) (act : α → α) (ihd : Int) (ihh : Nat) (p : MaskDecoderParams α) :
    (MaskDecoder.make td tf nmo act ihd ihh p).num_mask_tokens = nmo + 1 := rfl

theorem make_hypernets {α : Type} (td : Nat)
    (tf : Tensor4 α → Tensor4 α → Tensor3 α → Tensor3 α × Tensor3 α)
    (nmo : Nat) (act : α → α) (ihd : Int) (ihh : Nat) (p : MaskDecoderParams α) :
    (MaskDecoder.make td tf nmo act ihd ihh p).output_hypernetworks_mlps
      = (List.range (nmo + 1)).map
        (fun i => MLP.make td td (td / 8) 3 (p.hyperWeight i) (p.hyperBias i) false) := rfl

theorem make_iou_head {α : Type} (td : Nat)
    (tf : Tensor4 α → Tensor4 α → Tensor3 α → Tensor3 α × Tensor3 α)
    (nmo : Nat) (act : α → α) (ihd : Int) (ihh : Nat) (p : MaskDecoderParams α) :
    (MaskDecoder.make td tf nmo act ihd ihh p).iou_prediction_head
      = MLP.make td ihh (nmo + 1) ihd p.iouHeadWeight p.iouHeadBias false := rfl

theorem make_iou_token {α : Type} (td : Nat)
    (tf : Tensor4 α → Tensor4 α → Tensor3 α → Tensor3 α × Tensor3 α)
    (nmo : Nat) (act : α → α) (ihd : Int) (ihh : Nat) (p : MaskDecoderParams α) :
    (MaskDecoder.make td tf nmo act ihd ihh p).iou_token
      = { shape := { d0 := 1, d1 := td }, val := p.iouTokenWeight } := rfl

theorem make_mask_tokens {α : Type} (td : Nat)
    (tf : Tensor4 α → Tensor4 α → Tensor3 α → Tensor3 α × Tensor3 α)
    (nmo : Nat) (act : α → α) (ihd : Int) (ihh : Nat) (p : MaskDecoderParams α) :
    (MaskDecoder.make td tf nmo act ihd ihh p).mask_tokens
      = { shape := { d0 := nmo + 1, d1 := td }, val := p.maskTokensWeight } := rfl

theorem make_up1 {α : Type} (td : Nat)
    (tf : Tensor4 α → Tensor4 α → Tensor3 α → Tensor3 α × Tensor3 α)
    (nmo : Nat) (act : α → α) (ihd : Int) (ihh : Nat) (p : MaskDecoderParams α) :
    (MaskDecoder.make td tf nmo act ihd ihh p).up1
      = { in_channels := td, out_channels := td / 4
          weight := p.up1Weight, bias := p.up1Bias } := rfl

theorem make_up2 {α : Type} (td : Nat)
    (tf : Tensor4 α → Tensor4 α → Tensor3 α → Tensor3 α × Tensor3 α)
    (nmo : Nat) (act : α → α) (ihd : Int) (ihh : Nat) (p : MaskDecoderParams α) :
    (MaskDecoder.make td tf nmo act ihd ihh p).up2
      = { in_channels := td / 4, out_channels := td / 8
          weight := p.up2Weight, bias := p.up2Bias } := rfl

/-- The concrete transformer `tfFlat` satisfies the interface contract. -/
theorem tfFlat_contract (α : Type) : TransformerContract (tfFlat α) :=
  fun _ _ _ => ⟨rfl, rfl⟩

/-- The assembled token sequence has batch `sparse.shape.b` and token length
`(1 + (nmo + 1)) + N`. -/
theorem tokensOf_shape {α : Type} (td : Nat)
    (tf : Tensor4 α → Tensor4 α → Tensor3 α → Tensor3 α × Tensor3 α)
    (nmo : Nat) (act : α → α) (ihd : Int) (ihh : Nat) (p : MaskDecoderParams α)
    (sparse : Tensor3 α) :
    ((MaskDecoder.make td tf nmo act ihd ihh p).tokensOf sparse).shape
      = { b := sparse.shape.b, t := 1 + (nmo + 1) + sparse.shape.t, c := td } := rfl

/-- The broadcast source feature map has batch `image.shape.b * sparse.shape.b`. -/
theorem srcOf_shape {α : Type} [LinearOrderedField α] (td : Nat)
    (tf : Tensor4 α → Tensor4 α → Tensor3 α → Tensor3 α × Tensor3 α)
    (nmo : Nat) (act : α → α) (ihd : Int) (ihh : Nat) (p : MaskDecoderParams α)
    (image dense : Tensor4 α) (sparse : Tensor3 α) :
    ((MaskDecoder.make td tf nmo act ihd ihh p).srcOf image dense sparse).shape
      = { b := image.shape.b * sparse.shape.b, c := image.shape.c
          h := image.shape.h, w := image.shape.w } := rfl

/-- Under the transformer contract, the refined tokens keep the token
sequence's shape. -/
theorem tfOut_fst_shape {α : Type} [LinearOrderedField α] (td : Nat)
    (tf : Tensor4 α → Tensor4 α → Tensor3 α → Tensor3 α × Tensor3 α)
    (nmo : Nat) (act : α → α) (ihd : Int) (ihh : Nat) (p : MaskDecoderParams α)
    (image pe : Tensor4 α) (sparse : Tensor3 α) (dense : Tensor4 α)
    (htf : TransformerContract tf) :
    ((MaskDecoder.make td tf nmo act ihd ihh p).tfOut image pe sparse dense).1.shape
      = { b := sparse.shape.b, t := 1 + (nmo + 1) + sparse.shape.t, c := td } :=
  (htf _ _ _).1.trans (tokensOf_shape td tf nmo act ihd ihh p sparse)

/-- The upscaled embedding's shape, by definitional computation: channels
`td / 8` and each spatial dimension doubled twice. -/
theorem upscaledOf_shape {α : Type} [LinearOrderedField α] (td : Nat)
    (tf : Tensor4 α → Tensor4 α → Tensor3 α → Tensor3 α × Tensor3 α)
    (nmo : Nat) (act : α → α) (ihd : Int) (ihh : Nat) (p : MaskDecoderParams α)
    (image pe : Tensor4 α) (sparse : Tensor3 α) (dense : Tensor4 α) :
    ((MaskDecoder.make td tf nmo act ihd ihh p).upscaledOf image pe sparse dense).shape
      = { b := image.shape.b * sparse.shape.b, c := td / 8
          h := 2 * (2 * image.shape.h), w := 2 * (2 * image.shape.w) } := rfl

/-- Under the transformer contract, the sliced mask tokens are the
`nmo + 1` slots starting at index 1. -/
theorem maskTokensOut_shape {α : Type} [LinearOrderedField α] (td : Nat)
    (tf : Tensor4 α → Tensor4 α → Tensor3 α → Tensor3 α × Tensor3 α)
    (nmo : Nat) (act : α → α) (ihd : Int) (ihh : Nat) (p : MaskDecoderParams α)
    (image pe : Tensor4 α) (sparse : Tensor3 α) (dense : Tensor4 α)
    (htf : TransformerContract tf) :
    ((MaskDecoder.make td tf nmo act ihd ihh p).maskTokensOut image pe sparse dense).shape
      = { b := sparse.shape.b, t := nmo + 1, c := td } := by
  simp only [MaskDecoder.maskTokensOut, slice3dim1, make_num_mask_tokens,
    tfOut_fst_shape td tf nmo act ihd ihh p image pe sparse dense htf]
  simp only [Shape3.mk.injEq]
  exact ⟨trivial, by omega, trivial⟩

/-- Under the transformer contract, the stacked hypernetwork outputs form a
`[sparse.shape.b, nmo + 1, td / 8]` tensor. -/
theorem hyperInOf_shape {α : Type} [LinearOrderedField α] (sg : α → α) (td : Nat)
    (tf : Tensor4 α → Tensor4 α → Tensor3 α → Tensor3 α × Tensor3 α)
    (nmo : Nat) (act : α → α) (ihd : Int) (ihh : Nat) (p : MaskDecoderParams α)
    (image pe : Tensor4 α) (sparse : Tensor3 α) (dense : Tensor4 α)
    (htf : TransformerContract tf) :
    ((MaskDecoder.make td tf nmo act ihd ihh p).hyperInOf sg image pe sparse dense).shape
      = { b := sparse.shape.b, t := nmo + 1, c := td / 8 } := by
  have hhead : ∀ (f : Nat → Tensor2 α),
      ((List.range (nmo + 1)).map f).headD Tensor2.zero = f 0 := by
    intro f
    rw [List.range_succ_eq_map]
    rfl
  simp only [MaskDecoder.hyperInOf, stack3dim1, make_num_mask_tokens, hhead,
    List.length_map, List.length_range]
  have hmlp : (MaskDecoder.make td tf nmo act ihd ihh p).output_hypernetworks_mlps.getD
      0 mlpDefault = MLP.make td td (td / 8) 3 (p.hyperWeight 0) (p.hyperBias 0) false := by
    rw [make_hypernets, getD_map_range _ (Nat.succ_pos nmo)]
  simp only [MLP.forward2, hmlp, mlp_make_outDim, select3dim1,
    maskTokensOut_shape td tf nmo act ihd ihh p image pe sparse dense htf]

/-- The inferred `-1` dimension of the final `view(b, -1, h, w)` equals
`nmo + 1` when the per-image batch is 1 and the sizes are positive. -/
theorem masks_infer_dim {α : Type} [LinearOrderedField α] (sg : α → α) (td : Nat)
    (tf : Tensor4 α → Tensor4 α → Tensor3 α → Tensor3 α × Tensor3 α)
    (nmo : Nat) (act : α → α) (ihd : Int) (ihh : Nat) (p : MaskDecoderParams α)
    (image pe : Tensor4 α) (sparse : Tensor3 α) (dense : Tensor4 α)
    (htf : TransformerContract tf) (him : image.shape.b = 1)
    (hb : 1 ≤ sparse.shape.b) (hh : 1 ≤ image.shape.h) (hw : 1 ≤ image.shape.w) :
    (matmul3 ((MaskDecoder.make td tf nmo act ihd ihh p).hyperInOf sg image pe sparse dense)
        (view3of4 ((MaskDecoder.make td tf nmo act ihd ihh p).upscaledOf image pe sparse dense)
          ((MaskDecoder.make td tf nmo act ihd ihh p).upscaledOf image pe sparse dense).shape.b
          ((MaskDecoder.make td tf nmo act ihd ihh p).upscaledOf image pe sparse dense).shape.c
          (((MaskDecoder.make td tf nmo act ihd ihh p).upscaledOf image pe sparse
              dense).shape.h
            * ((MaskDecoder.make td tf nmo act ihd ihh p).upscaledOf image pe sparse
              dense).shape.w))).numel
      / (((MaskDecoder.make td tf nmo act ihd ihh p).upscaledOf image pe sparse dense).shape.b
        * ((MaskDecoder.make td tf nmo act ihd ihh p).upscaledOf image pe sparse dense).shape.h
        * ((MaskDecoder.make td tf nmo act ihd ihh p).upscaledOf image pe sparse
          dense).shape.w)
      = nmo + 1 := by
  simp only [Tensor3.numel, matmul3, view3of4,
    upscaledOf_shape td tf nmo act ihd ihh p image pe sparse dense,
    hyperInOf_shape sg td tf nmo act ihd ihh p image pe sparse dense htf, him, one_mul]
  have hpos : 0 < sparse.shape.b * (2 * (2 * image.shape.h)) * (2 * (2 * image.shape.w)) := by
    have h1 : 0 < 2 * (2 * image.shape.h) := by omega
    have h2 : 0 < 2 * (2 * image.shape.w) := by omega
    exact Nat.mul_pos (Nat.mul_pos hb h1) h2
  rw [show sparse.shape.b * (nmo + 1) * (2 * (2 * image.shape.h) * (2 * (2 * image.shape.w)))
      = sparse.shape.b * (2 * (2 * image.shape.h)) * (2 * (2 * image.shape.w)) * (nmo + 1)
    by ring]
  exact Nat.mul_div_cancel_left _ hpos

/-- Shape of the synthesized masks: `[sparse.shape.b, nmo + 1, 4H, 4W]` when
the per-image batch is 1. -/
theorem masksOf_shape {α : Type} [LinearOrderedField α] (sg : α → α) (td : Nat)
    (tf : Tensor4 α → Tensor4 α → Tensor3 α → Tensor3 α × Tensor3 α)
    (nmo : Nat) (act : α → α) (ihd : Int) (ihh : Nat) (p : MaskDecoderParams α)
    (image pe : Tensor4 α) (sparse : Tensor3 α) (dense : Tensor4 α)
    (htf : TransformerContract tf) (him : image.shape.b = 1)
    (hb : 1 ≤ sparse.shape.b) (hh : 1 ≤ image.shape.h) (hw : 1 ≤ image.shape.w) :
    ((MaskDecoder.make td tf nmo act ihd ihh p).masksOf sg image pe sparse dense).shape
      = { b := sparse.shape.b, c := nmo + 1
          h := 4 * image.shape.h, w := 4 * image.shape.w } := by
  simp only [MaskDecoder.masksOf, view4infer]
  rw [masks_infer_dim sg td tf nmo act ihd ihh p image pe sparse dense htf him hb hh hw]
  simp only [upscaledOf_shape td tf nmo act ihd ihh p image pe sparse dense, him, one_mul]
  have h3 : 2 * (2 * image.shape.h) = 4 * image.shape.h := by ring
  have h4 : 2 * (2 * image.shape.w) = 4 * image.shape.w := by ring
  rw [h3, h4]

/-- Shape of the quality predictions: `[sparse.shape.b, nmo + 1]`. -/
theorem iouPredOf_shape {α : Type} [LinearOrderedField α] (sg : α → α) (td : Nat)
    (tf : Tensor4 α → Tensor4 α → Tensor3 α → Tensor3 α × Tensor3 α)
    (nmo : Nat) (act : α → α) (ihd : Int) (ihh : Nat) (p : MaskDecoderParams α)
    (image pe : Tensor4 α) (sparse : Tensor3 α) (dense : Tensor4 α)
    (htf : TransformerContract tf) :
    ((MaskDecoder.make td tf nmo act ihd ihh p).iouPredOf sg image pe sparse dense).shape
      = { d0 := sparse.shape.b, d1 := nmo + 1 } := by
  simp only [MaskDecoder.iouPredOf, MLP.forward2, MaskDecoder.iouTokenOut, select3dim1,
    make_iou_head, mlp_make_outDim,
    tfOut_fst_shape td tf nmo act ihd ihh p image pe sparse dense htf]

/-- Entrywise value of the synthesized masks: the dot product of the mask
slot's projection vector with the upscaled embedding at the given pixel. -/
theorem masksOf_val {α : Type} [LinearOrderedField α] (sg : α → α) (td : Nat)
    (tf : Tensor4 α → Tensor4 α → Tensor3 α → Tensor3 α × Tensor3 α)
    (nmo : Nat) (act : α → α) (ihd : Int) (ihh : Nat) (p : MaskDecoderParams α)
    (image pe : Tensor4 α) (sparse : Tensor3 α) (dense : Tensor4 α)
    (htf : TransformerContract tf) (him : image.shape.b = 1)
    (hb : 1 ≤ sparse.shape.b) (hh : 1 ≤ image.shape.h) (hw : 1 ≤ image.shape.w)
    (b m y x : Nat) (hm : m < nmo + 1)
    (hy : y < 4 * image.shape.h) (hx : x < 4 * image.shape.w) :
    ((MaskDecoder.make td tf nmo act ihd ihh p).masksOf sg image pe sparse dense).val b m y x
      = ∑ k ∈ Finset.range (td / 8),
        ((MaskDecoder.make td tf nmo act ihd ihh p).hyperInOf sg image pe sparse
          dense).val b m k
        * ((MaskDecoder.make td tf nmo act ihd ihh p).upscaledOf image pe sparse
          dense).val b k y x := by
  have hy2 : y < 2 * (2 * image.shape.h) := by omega
  have hx2 : x < 2 * (2 * image.shape.w) := by omega
  have hdec := flat_index_decomp b m y x (nmo + 1) (2 * (2 * image.shape.h))
    (2 * (2 * image.shape.w)) hm hy2 hx2
  have hrm := rowmajor_div_mod y x (2 * (2 * image.shape.w)) hx2
  simp only [MaskDecoder.masksOf, view4infer]
  rw [masks_infer_dim sg td tf nmo act ihd ihh p image pe sparse dense htf him hb hh hw]
  simp only [matmul3, view3of4,
    upscaledOf_shape td tf nmo act ihd ihh p image pe sparse dense,
    hyperInOf_shape sg td tf nmo act ihd ihh p image pe sparse dense htf]
  simp only [hdec.1, hdec.2.1, hdec.2.2, hrm.1, hrm.2]

/-- C6 amended-claim witness at `transformerDim = 8`, slot 0. -/
theorem C6_projection_dim_floor_witness :
    ((MaskDecoder.make 8 (tfFlat ℚ) 3 id 3 256 zeroParams).output_hypernetworks_mlps.getD
        0 mlpDefault).outDim = 8 / 8
    ∧ (8 ∣ 8 → 8 / 8 * 8 = 8) :=
  C6_projection_dim_floor 8 (tfFlat ℚ) 3 id 3 256 zeroParams 0 (by decide)

/-- Shape of the masks returned by `forward`: the mask-slot count is
`nmo` when `multimask_output` is set, else 1. -/
theorem forward_masks_shape {α : Type} [LinearOrderedField α] (sg : α → α) (td : Nat)
    (tf : Tensor4 α → Tensor4 α → Tensor3 α → Tensor3 α × Tensor3 α)
    (nmo : Nat) (act : α → α) (ihd : Int) (ihh : Nat) (p : MaskDecoderParams α)
    (image pe : Tensor4 α) (sparse : Tensor3 α) (dense : Tensor4 α)
    (htf : TransformerContract tf) (him : image.shape.b = 1)
    (hb : 1 ≤ sparse.shape.b) (hh : 1 ≤ image.shape.h) (hw : 1 ≤ image.shape.w)
    (mm : Bool) :
    (MaskDecoder.forward sg (MaskDecoder.make td tf nmo act ihd ihh p)
        image pe sparse dense mm).1.shape
      = { b := sparse.shape.b, c := if mm then nmo else 1
          h := 4 * image.shape.h, w := 4 * image.shape.w } := by
  have hm := masksOf_shape sg td tf nmo act ihd ihh p image pe sparse dense htf him hb hh hw
  cases mm with
  | true =>
      show (slice4dim1 ((MaskDecoder.make td tf nmo act ihd ihh p).masksOf sg
          image pe sparse dense) 1 none).shape
        = { b := sparse.shape.b, c := nmo, h := 4 * image.shape.h, w := 4 * image.shape.w }
      simp only [slice4dim1, hm, Option.getD_none]
      simp only [Shape4.mk.injEq]
      exact ⟨trivial, by omega, trivial, trivial⟩
  | false =>
      show (slice4dim1 ((MaskDecoder.make td tf nmo act ihd ihh p).masksOf sg
          image pe sparse dense) 0 (some 1)).shape
        = { b := sparse.shape.b, c := 1, h := 4 * image.shape.h, w := 4 * image.shape.w }
      simp only [slice4dim1, hm, Option.getD_some]
      simp only [Shape4.mk.injEq]
      exact ⟨trivial, by omega, trivial, trivial⟩

/-- Shape of the quality scores returned by `forward`: `nmo` scores when
`multimask_output` is set, else 1. -/
theorem forward_iou_shape {α : Type} [LinearOrderedField α] (sg : α → α) (td : Nat)
    (tf : Tensor4 α → Tensor4 α → Tensor3 α → Tensor3 α × Tensor3 α)
    (nmo : Nat) (act : α → α) (ihd : Int) (ihh : Nat) (p : MaskDecoderParams α)
    (image pe : Tensor4 α) (sparse : Tensor3 α) (dense : Tensor4 α)
    (htf : TransformerContract tf) (mm : Bool) :
    (MaskDecoder.forward sg (MaskDecoder.make td tf nmo act ihd ihh p)
        image pe sparse dense mm).2.shape
      = { d0 := sparse.shape.b, d1 := if mm then nmo else 1 } := by
  have hi := iouPredOf_shape sg td tf nmo act ihd ihh p image pe sparse dense htf
  cases mm with
  | true =>
      show (slice2dim1 ((MaskDecoder.make td tf nmo act ihd ihh p).iouPredOf sg
          image pe sparse dense) 1 none).shape
        = { d0 := sparse.shape.b, d1 := nmo }
      simp only [slice2dim1, hi, Option.getD_none]
      simp only [Shape2.mk.injEq]
      exact ⟨trivial, by omega⟩
  | false =>
      show (slice2dim1 ((MaskDecoder.make td tf nmo act ihd ihh p).iouPredOf sg
          image pe sparse dense) 0 (some 1)).shape
        = { d0 := sparse.shape.b, d1 := 1 }
      simp only [slice2dim1, hi, Option.getD_some]
      simp only [Shape2.mk.injEq]
      exact ⟨trivial, by omega⟩

/-- C1: `forward` returns slices of the full `num_mask_tokens`-slot
`predict_masks` computation: with `multimaskOutput` true, exactly slots
`1..M-1` of both masks and scores (`K = M - 1` of each); with it false,
exactly slot 0 (`K = 1` of each); the same slice is applied to both tensors,
and the single-mask output equals slot 0 of the full `M`-slot computation. -/
theorem C1_output_selection {α : Type} [LinearOrderedField α] (sg : α → α) (td : Nat)
    (tf : Tensor4 α → Tensor4 α → Tensor3 α → Tensor3 α × Tensor3 α)
    (nmo : Nat) (act : α → α) (ihd : Int) (ihh : Nat) (p : MaskDecoderParams α)
    (image pe : Tensor4 α) (sparse : Tensor3 α) (dense : Tensor4 α)
    (htf : TransformerContract tf) (him : image.shape.b = 1)
    (hb : 1 ≤ sparse.shape.b) (hh : 1 ≤ image.shape.h) (hw : 1 ≤ image.shape.w)
    (b k y x : Nat) :
    (MaskDecoder.forward sg (MaskDecoder.make td tf nmo act ihd ihh p)
        image pe sparse dense true).1.shape
      = { b := sparse.shape.b, c := nmo, h := 4 * image.shape.h, w := 4 * image.shape.w }
    ∧ (MaskDecoder.forward sg (MaskDecoder.make td tf nmo act ihd ihh p)
        image pe sparse dense true).2.shape
      = { d0 := sparse.shape.b, d1 := nmo }
    ∧ (MaskDecoder.forward sg (MaskDecoder.make td tf nmo act ihd ihh p)
        image pe sparse dense true).1.val b k y x
      = ((MaskDecoder.make td tf nmo act ihd ihh p).predict_masks sg
          image pe sparse dense).1.val b (1 + k) y x
    ∧ (MaskDecoder.forward sg (MaskDecoder.make td tf nmo act ihd ihh p)
        image pe sparse dense true).2.val b k
      = ((MaskDecoder.make td tf nmo act ihd ihh p).predict_masks sg
          image pe sparse dense).2.val b (1 + k)
    ∧ (MaskDecoder.forward sg (MaskDecoder.make td tf nmo act ihd ihh p)
        image pe sparse dense false).1.shape
      = { b := sparse.shape.b, c := 1, h := 4 * image.shape.h, w := 4 * image.shape.w }
    ∧ (MaskDecoder.forward sg (MaskDecoder.make td tf nmo act ihd ihh p)
        image pe sparse dense false).2.shape
      = { d0 := sparse.shape.b, d1 := 1 }
    ∧ (MaskDecoder.forward sg (MaskDecoder.make td tf nmo act ihd ihh p)
        image pe sparse dense false).1.val b 0 y x
      = ((MaskDecoder.make td tf nmo act ihd ihh p).predict_masks sg
          image pe sparse dense).1.val b 0 y x
    ∧ (MaskDecoder.forward sg (MaskDecoder.make td tf nmo act ihd ihh p)
        image pe sparse dense false).2.val b 0
      = ((MaskDecoder.make td tf nmo act ihd ihh p).predict_masks sg
          image pe sparse dense).2.val b 0 := by
  refine ⟨?_, ?_, rfl, rfl, ?_, ?_, rfl, rfl⟩
  · exact forward_masks_shape sg td tf nmo act ihd ihh p image pe sparse dense
      htf him hb hh hw true
  · exact forward_iou_shape sg td tf nmo act ihd ihh p image pe sparse dense htf true
  · exact forward_masks_shape sg td tf nmo act ihd ihh p image pe sparse dense
      htf him hb hh hw false
  · exact forward_iou_shape sg td tf nmo act ihd ihh p image pe sparse dense htf false

/-- C1 witness: at a concrete decoder and concrete inputs with two prompt
instances, the multimask output keeps 3 of the 4 mask slots. -/
theorem C1_output_selection_witness :
    (MaskDecoder.forward id (MaskDecoder.make 8 (tfFlat ℚ) 3 id 3 256 zeroParams)
        img1 img1 sp2 dn2 true).1.shape
      = { b := 2, c := 3, h := 4, w := 4 } :=
  (C1_output_selection id 8 (tfFlat ℚ) 3 id 3 256 zeroParams img1 img1 sp2 dn2
    (tfFlat_contract ℚ) rfl (by decide) (by decide) (by decide) 0 0 0 0).1

/-- C2 counterexample: with per-image batch `B = 2` (image shape
`[2, 8, 1, 1]`) and one prompt instance (`sparse` shape `[1, 1, 8]`),
`repeat_interleave` repeats each of the 2 images once per prompt instance
count, producing per-instance batch `2 * 1 = 2`, and the returned masks have
shape `[2, 2, 4, 4]` rather than the claimed `[B', K, 4H, 4W] = [1, 1, 4, 4]`. -/
theorem C2_counterexample_batch2 :
    (MaskDecoder.forward id decQ8 (zeros4 { b := 2, c := 8, h := 1, w := 1 })
        (zeros4 { b := 2, c := 8, h := 1, w := 1 }) (zeros3 { b := 1, t := 1, c := 8 })
        (zeros4 { b := 2, c := 8, h := 1, w := 1 }) false).1.shape
      ≠ { b := 1, c := 1, h := 4, w := 4 } := by
  decide

/-- C2 amended: `repeat_interleave` repeats every image `sparse.shape.b`
times, so the broadcast batch is `image.shape.b * sparse.shape.b`; when the
per-image batch is 1 — the supported "N prompts over one image" pattern — the
single image's feature map and positional encoding are each repeated once per
prompt instance, the broadcast is a repeat-count expansion reading image
index 0, and the returned masks and scores have shapes `[B', K, 4H, 4W]` and
`[B', K]` with `K = M - 1` when `multimaskOutput` else 1. -/
theorem C2_broadcast_per_instance {α : Type} [LinearOrderedField α] (sg : α → α) (td : Nat)
    (tf : Tensor4 α → Tensor4 α → Tensor3 α → Tensor3 α × Tensor3 α)
    (nmo : Nat) (act : α → α) (ihd : Int) (ihh : Nat) (p : MaskDecoderParams α)
    (image pe : Tensor4 α) (sparse : Tensor3 α) (dense : Tensor4 α)
    (htf : TransformerContract tf) (him : image.shape.b = 1) (hpe : pe.shape.b = 1)
    (hb : 1 ≤ sparse.shape.b) (hh : 1 ≤ image.shape.h) (hw : 1 ≤ image.shape.w)
    (mm : Bool) (b c y x : Nat) (hblt : b < sparse.shape.b) :
    ((MaskDecoder.make td tf nmo act ihd ihh p).posSrcOf pe sparse).shape
      = { b := sparse.shape.b, c := pe.shape.c, h := pe.shape.h, w := pe.shape.w }
    ∧ ((MaskDecoder.make td tf nmo act ihd ihh p).posSrcOf pe sparse).val b c y x
      = pe.val 0 c y x
    ∧ ((MaskDecoder.make td tf nmo act ihd ihh p).srcOf image dense sparse).shape
      = { b := sparse.shape.b, c := image.shape.c, h := image.shape.h, w := image.shape.w }
    ∧ ((MaskDecoder.make td tf nmo act ihd ihh p).srcOf image dense sparse).val b c y x
      = image.val 0 c y x + dense.val b c y x
    ∧ (MaskDecoder.forward sg (MaskDecoder.make td tf nmo act ihd ihh p)
        image pe sparse dense mm).1.shape
      = { b := sparse.shape.b, c := if mm then nmo else 1
          h := 4 * image.shape.h, w := 4 * image.shape.w }
    ∧ (MaskDecoder.forward sg (MaskDecoder.make td tf nmo act ihd ihh p)
        image pe sparse dense mm).2.shape
      = { d0 := sparse.shape.b, d1 := if mm then nmo else 1 } := by
  have hdiv : b / sparse.shape.b = 0 := Nat.div_eq_of_lt hblt
  have htok := tokensOf_shape td tf nmo act ihd ihh p sparse
  refine ⟨?_, ?_, ?_, ?_, ?_, ?_⟩
  · simp only [MaskDecoder.posSrcOf, repeatInterleave0, htok, hpe, one_mul]
  · simp only [MaskDecoder.posSrcOf, repeatInterleave0, htok, hdiv]
  · simp only [MaskDecoder.srcOf, add4, repeatInterleave0, htok, him, one_mul]
  · simp only [MaskDecoder.srcOf, add4, repeatInterleave0, htok, hdiv]
  · exact forward_masks_shape sg td tf nmo act ihd ihh p image pe sparse dense
      htf him hb hh hw mm
  · exact forward_iou_shape sg td tf nmo act ihd ihh p image pe sparse dense htf mm

/-- C2 amended-claim witness: one image, two prompt instances, single-mask
output; the masks have shape `[2, 1, 4, 4]`. -/
theorem C2_broadcast_per_instance_witness :
    (MaskDecoder.forward id (MaskDecoder.make 8 (tfFlat ℚ) 3 id 3 256 zeroParams)
        img1 img1 sp2 dn2 false).1.shape
      = { b := 2, c := 1, h := 4, w := 4 } :=
  (C2_broadcast_per_instance id 8 (tfFlat ℚ) 3 id 3 256 zeroParams img1 img1 sp2 dn2
    (tfFlat_contract ℚ) rfl rfl (by decide) (by decide) (by decide) false 1 0 0 0
    (by decide)).2.2.2.2.1

/-- C3: the mask upscaler is exactly two stride-2 kernel-2 transposed
convolutions — the first reduces channels to `td / 4` and doubles both
spatial dimensions, the second reduces to `td / 8` and doubles them again (a
normalization step and the activation sit after the first stage, the
activation alone after the second, neither changing the shape) — hence the
output shape is `[B, td / 8, 4H, 4W]`, exactly 4x the input spatial size. -/
theorem C3_upscaler_shape {α : Type} [LinearOrderedField α] (td : Nat)
    (tf : Tensor4 α → Tensor4 α → Tensor3 α → Tensor3 α × Tensor3 α)
    (nmo : Nat) (act : α → α) (ihd : Int) (ihh : Nat) (p : MaskDecoderParams α)
    (x : Tensor4 α) (B H W : Nat) (hx : x.shape = { b := B, c := td, h := H, w := W })
    (hH : 1 ≤ H) (hW : 1 ≤ W) :
    ((MaskDecoder.make td tf nmo act ihd ihh p).up1.apply x).shape
      = { b := B, c := td / 4, h := 2 * H, w := 2 * W }
    ∧ ((MaskDecoder.make td tf nmo act ihd ihh p).output_upscaling x).shape
      = { b := B, c := td / 8, h := 4 * H, w := 4 * W } := by
  constructor
  · simp only [ConvT2x2.apply, make_up1, hx]
  · simp only [MaskDecoder.output_upscaling, mapVal4, ConvT2x2.apply, LayerNorm2d.apply,
      make_up1, make_up2, hx]
    have h3 : 2 * (2 * H) = 4 * H := by ring
    have h4 : 2 * (2 * W) = 4 * W := by ring
    rw [h3, h4]

/-- C3 witness at input shape `[1, 8, 2, 3]`: the upscaled embedding has
shape `[1, 1, 8, 12]`. -/
theorem C3_upscaler_shape_witness :
    ((MaskDecoder.make 8 (tfFlat ℚ) 3 id 3 256 zeroParams).up1.apply
        (zeros4 { b := 1, c := 8, h := 2, w := 3 })).shape
      = { b := 1, c := 2, h := 4, w := 6 }
    ∧ ((MaskDecoder.make 8 (tfFlat ℚ) 3 id 3 256 zeroParams).output_upscaling
        (zeros4 { b := 1, c := 8, h := 2, w := 3 })).shape
      = { b := 1, c := 1, h := 8, w := 12 } :=
  C3_upscaler_shape 8 (tfFlat ℚ) 3 id 3 256 zeroParams
    (zeros4 { b := 1, c := 8, h := 2, w := 3 }) 1 2 3 rfl (by decide) (by decide)

/-- C4: each of the `M = nmo + 1` mask-token slots has its own independently
parameterized 3-stage MLP of dims `(td, td, td / 8)`; the stacked projection
vectors form `[B', M, td / 8]`; and every in-range entry of the synthesized
masks (shape `[B', M, 4H, 4W]`) is the dot product over the `td / 8` channels
of the slot's projection vector with the upscaled embedding at that pixel,
i.e. the batched matrix product of the projections with the flattened
upscaled embedding, reshaped back to `[B', M, 4H, 4W]`. -/
theorem C4_hypernetwork_synthesis {α : Type} [LinearOrderedField α] (sg : α → α) (td : Nat)
    (tf : Tensor4 α → Tensor4 α → Tensor3 α → Tensor3 α × Tensor3 α)
    (nmo : Nat) (act : α → α) (ihd : Int) (ihh : Nat) (p : MaskDecoderParams α)
    (image pe : Tensor4 α) (sparse : Tensor3 α) (dense : Tensor4 α)
    (htf : TransformerContract tf) (him : image.shape.b = 1)
    (hb : 1 ≤ sparse.shape.b) (hh : 1 ≤ image.shape.h) (hw : 1 ≤ image.shape.w)
    (i b m y x : Nat) (hi : i < nmo + 1) (hm : m < nmo + 1)
    (hy : y < 4 * image.shape.h) (hx : x < 4 * image.shape.w) :
    (MaskDecoder.make td tf nmo act ihd ihh p).output_hypernetworks_mlps.length = nmo + 1
    ∧ (MaskDecoder.make td tf nmo act ihd ihh p).output_hypernetworks_mlps.getD i mlpDefault
      = MLP.make td td (td / 8) 3 (p.hyperWeight i) (p.hyperBias i) false
    ∧ ((MaskDecoder.make td tf nmo act ihd ihh p).hyperInOf sg image pe sparse dense).shape
      = { b := sparse.shape.b, t := nmo + 1, c := td / 8 }
    ∧ ((MaskDecoder.make td tf nmo act ihd ihh p).masksOf sg image pe sparse dense).shape
      = { b := sparse.shape.b, c := nmo + 1, h := 4 * image.shape.h, w := 4 * image.shape.w }
    ∧ ((MaskDecoder.make td tf nmo act ihd ihh p).masksOf sg image pe sparse
        dense).val b m y x
      = ∑ k ∈ Finset.range (td / 8),
        ((MaskDecoder.make td tf nmo act ihd ihh p).hyperInOf sg image pe sparse
          dense).val b m k
        * ((MaskDecoder.make td tf nmo act ihd ihh p).upscaledOf image pe sparse
          dense).val b k y x := by
  refine ⟨?_, ?_, ?_, ?_, ?_⟩
  · rw [make_hypernets]
    simp
  · rw [make_hypernets, getD_map_range _ hi]
  · exact hyperInOf_shape sg td tf nmo act ihd ihh p image pe sparse dense htf
  · exact masksOf_shape sg td tf nmo act ihd ihh p image pe sparse dense htf him hb hh hw
  · exact masksOf_val sg td tf nmo act ihd ihh p image pe sparse dense htf him hb hh hw
      b m y x hm hy hx

/-- C4 witness: at the concrete decoder and inputs, the stacked projection
vectors have shape `[2, 4, 1]`. -/
theorem C4_hypernetwork_synthesis_witness :
    ((MaskDecoder.make 8 (tfFlat ℚ) 3 id 3 256 zeroParams).hyperInOf id
        img1 img1 sp2 dn2).shape
      = { b := 2, t := 4, c := 1 } :=
  (C4_hypernetwork_synthesis id 8 (tfFlat ℚ) 3 id 3 256 zeroParams img1 img1 sp2 dn2
    (tfFlat_contract ℚ) rfl (by decide) (by decide) (by decide) 0 0 0 0 0
    (by decide) (by decide) (by decide) (by decide)).2.2.1

/-- C5: the token sequence fed to the transformer is the concatenation of the
quality token at index 0, the `M = nmo + 1` mask tokens at indices `1..M`,
and the `N` sparse prompt embeddings after them — total length `1 + M + N` —
broadcast to the batch size taken from the sparse prompt embedding's leading
dimension; after the transformer, index 0 of the refined tokens feeds the
quality head and indices `1..M` feed the hypernetworks. -/
theorem C5_token_sequence {α : Type} [LinearOrderedField α] (sg : α → α) (td : Nat)
    (tf : Tensor4 α → Tensor4 α → Tensor3 α → Tensor3 α × Tensor3 α)
    (nmo : Nat) (act : α → α) (ihd : Int) (ihh : Nat) (p : MaskDecoderParams α)
    (image pe : Tensor4 α) (sparse : Tensor3 α) (dense : Tensor4 α)
    (b i j c : Nat) (hi : i < nmo + 1) :
    ((MaskDecoder.make td tf nmo act ihd ihh p).tokensOf sparse).shape
      = { b := sparse.shape.b, t := 1 + (nmo + 1) + sparse.shape.t, c := td }
    ∧ ((MaskDecoder.make td tf nmo act ihd ihh p).tokensOf sparse).val b 0 c
      = p.iouTokenWeight 0 c
    ∧ ((MaskDecoder.make td tf nmo act ihd ihh p).tokensOf sparse).val b (1 + i) c
      = p.maskTokensWeight i c
    ∧ ((MaskDecoder.make td tf nmo act ihd ihh p).tokensOf sparse).val
        b (1 + (nmo + 1) + j) c
      = sparse.val b j c
    ∧ ((MaskDecoder.make td tf nmo act ihd ihh p).iouTokenOut image pe sparse dense).val b c
      = ((MaskDecoder.make td tf nmo act ihd ihh p).tfOut image pe sparse dense).1.val b 0 c
    ∧ ((MaskDecoder.make td tf nmo act ihd ihh p).maskTokensOut image pe sparse
        dense).val b i c
      = ((MaskDecoder.make td tf nmo act ihd ihh p).tfOut image pe sparse
        dense).1.val b (1 + i) c
    ∧ (MaskDecoder.make td tf nmo act ihd ihh p).iouPredOf sg image pe sparse dense
      = MLP.forward2 sg (MaskDecoder.make td tf nmo act ihd ihh p).iou_prediction_head
        ((MaskDecoder.make td tf nmo act ihd ihh p).iouTokenOut image pe sparse dense) := by
  refine ⟨tokensOf_shape td tf nmo act ihd ihh p sparse, ?_, ?_, ?_, rfl, rfl, rfl⟩
  · simp only [MaskDecoder.tokensOf, cat3dim1, expandBatch, MaskDecoder.outputTokens,
      cat2dim0, make_iou_token, make_mask_tokens]
    rw [if_pos (by omega : (0 : Nat) < 1 + (nmo + 1)), if_pos (by omega : (0 : Nat) < 1)]
  · simp only [MaskDecoder.tokensOf, cat3dim1, expandBatch, MaskDecoder.outputTokens,
      cat2dim0, make_iou_token, make_mask_tokens]
    rw [if_pos (by omega : 1 + i < 1 + (nmo + 1)), if_neg (by omega : ¬(1 + i < 1)),
      Nat.add_sub_cancel_left]
  · simp only [MaskDecoder.tokensOf, cat3dim1, expandBatch, MaskDecoder.outputTokens,
      cat2dim0, make_iou_token, make_mask_tokens]
    rw [if_neg (by omega : ¬(1 + (nmo + 1) + j < 1 + (nmo + 1))), Nat.add_sub_cancel_left]

/-- C5 witness: at the concrete decoder and inputs, token slot `1 + 0` reads
mask-token row 0. -/
theorem C5_token_sequence_witness :
    ((MaskDecoder.make 8 (tfFlat ℚ) 3 id 3 256 zeroParams).tokensOf sp2).val 0 (1 + 0) 0
      = zeroParams.maskTokensWeight 0 0 :=
  (C5_token_sequence id 8 (tfFlat ℚ) 3 id 3 256 zeroParams img1 img1 sp2 dn2 0 0 0 0
    (by decide)).2.2.1

end SegmentAnything
